import Mathlib

/-
Verification development for the CityTrafficSimulator repository
(src/city.py, src/pedestrian.py, src/ped_collisions.py).

The Python source is shallowly embedded below.  Randomness (random.uniform,
random.sample, the weighted draw of cell types) is modelled by explicit
oracle parameters; the networkx shortest-path routine is an external
collaborator and is modelled as an oracle function returning `Option`
(`none` models the NetworkXNoPath exception).  NetworkX graphs are modelled
as a finite node set, a finite set of undirected edges (`Sym2`), and an
attribute map for the `blocked` edge tag.
-/

/-- Embeds `CityLocationType` (city.py, class CityLocationType). -/
inductive CityLocationType where
  | residence
  | business
  | blockage
  | walkway
deriving DecidableEq, Repr

/-- Embeds `GeoLocation` (city.py).  The constructor rejects negative
coordinates, so latitude/longitude are naturals. -/
structure GeoLocation where
  latitude : Nat
  longitude : Nat
deriving DecidableEq, Repr

/-- Embeds `CityLocation` (city.py): a geo location plus a location type. -/
structure CityLocation where
  geo_location : GeoLocation
  location_type : CityLocationType
deriving DecidableEq, Repr

instance : Inhabited CityLocation := ⟨⟨⟨0, 0⟩, CityLocationType.residence⟩⟩

/-- Embeds `CityLocation.is_residence`. -/
def CityLocation.is_residence (c : CityLocation) : Bool :=
  c.location_type = CityLocationType.residence

/-- Embeds `CityLocation.is_business`. -/
def CityLocation.is_business (c : CityLocation) : Bool :=
  c.location_type = CityLocationType.business

/-- Embeds `CityLocation.is_walkway`. -/
def CityLocation.is_walkway (c : CityLocation) : Bool :=
  c.location_type = CityLocationType.walkway

/-- Embeds `CityLocation.is_blocked`. -/
def CityLocation.is_blocked (c : CityLocation) : Bool :=
  c.location_type = CityLocationType.blockage

/-- Model of an undirected networkx graph as used by city.py: a node set,
an edge set of unordered pairs, and the `blocked` attribute each edge was
last assigned by `add_edge`. -/
structure NXGraph where
  nodes : Finset CityLocation
  edges : Finset (Sym2 CityLocation)
  blockedAttr : Sym2 CityLocation → Bool

/-- `nx.Graph()`: the empty graph. -/
def NXGraph.empty : NXGraph := ⟨∅, ∅, fun _ => false⟩

/-- `g.add_node(v)` of networkx. -/
def NXGraph.add_node (g : NXGraph) (v : CityLocation) : NXGraph :=
  { g with nodes := insert v g.nodes }

/-- `g.add_edge(u, v, blocked=b)` of networkx: inserts both endpoints as
nodes, inserts the undirected edge, and (re)writes its `blocked` tag. -/
def NXGraph.add_edge_attr (g : NXGraph) (u v : CityLocation) (b : Bool) : NXGraph :=
  { nodes := insert u (insert v g.nodes),
    edges := insert s(u, v) g.edges,
    blockedAttr := fun e => if e = s(u, v) then b else g.blockedAttr e }

/-- Embeds `City.add_edge` (city.py lines 179-190): the edge is tagged
blocked when either endpoint is a blockage. -/
def City.add_edge (g : NXGraph) (source destination : CityLocation) : NXGraph :=
  g.add_edge_attr source destination (source.is_blocked || destination.is_blocked)

/-- `grid_map[row][column]` on the 2D list.  All uses below are in bounds
for the rectangular grids the source constructs or hypothesises. -/
def cellAt (grid_map : List (List CityLocation)) (row column : Nat) : CityLocation :=
  (grid_map.getD row []).getD column default

/-- The body of the edge-connecting loop of
`City.generate_graph_from_grid_map` (city.py lines 166-175): the four
guarded `add_edge` calls for one (row, column). -/
def edgesInnerStep (grid_map : List (List CityLocation)) (rows cols row : Nat)
    (g : NXGraph) (column : Nat) : NXGraph :=
  let g1 := if row + 1 < rows then
    City.add_edge g (cellAt grid_map row column) (cellAt grid_map (row + 1) column) else g
  let g2 := if 1 ≤ row then
    City.add_edge g1 (cellAt grid_map row column) (cellAt grid_map (row - 1) column) else g1
  let g3 := if column + 1 < cols then
    City.add_edge g2 (cellAt grid_map row column) (cellAt grid_map row (column + 1)) else g2
  if 1 ≤ column then
    City.add_edge g3 (cellAt grid_map row column) (cellAt grid_map row (column - 1)) else g3

/-- The first loop of `City.generate_graph_from_grid_map` (city.py lines
160-163): add a node for each point of the 2D map. -/
def City.graph_nodes_phase (grid_map : List (List CityLocation)) (rows cols : Nat) :
    NXGraph :=
  (List.range rows).foldl
    (fun g row => (List.range cols).foldl
      (fun g' column => g'.add_node (cellAt grid_map row column)) g)
    NXGraph.empty

/-- The second loop of `City.generate_graph_from_grid_map` (city.py lines
165-175): connect adjacent city nodes. -/
def City.graph_edges_phase (grid_map : List (List CityLocation)) (rows cols : Nat)
    (g0 : NXGraph) : NXGraph :=
  (List.range rows).foldl
    (fun g row => (List.range cols).foldl
      (fun g' column => edgesInnerStep grid_map rows cols row g' column) g)
    g0

/-- Embeds `City.generate_graph_from_grid_map` (city.py lines 144-177):
first add a node per grid cell, then connect all 4-adjacent cells; the
loop bounds are `len(grid_map)` and `len(grid_map[0])`. -/
def City.generate_graph_from_grid_map (grid_map : List (List CityLocation)) : NXGraph :=
  City.graph_edges_phase grid_map grid_map.length (grid_map.headD []).length
    (City.graph_nodes_phase grid_map grid_map.length (grid_map.headD []).length)

/-- Embeds the `City` class: the 2D grid plus the derived graph
(`City.__init__`, city.py lines 140-142). -/
structure City where
  grid_map : List (List CityLocation)
  city_graph : NXGraph

/-- `City(grid_map)`: the constructor derives the graph from the grid. -/
def City.ofGrid (grid_map : List (List CityLocation)) : City :=
  ⟨grid_map, City.generate_graph_from_grid_map grid_map⟩

/-- The `city_grid` built by `City.generate_random_city` (city.py lines
205-212): row `row` holds the cells `CityLocation(GeoLocation(row, column),
<random type>)` for each column; the weighted random type draw is
abstracted by the oracle `typeOracle row column` (its per-draw behaviour is
verified separately via `City.get_random_location_type`). -/
def randomGrid (typeOracle : Nat → Nat → CityLocationType)
    (rows columns : Nat) : List (List CityLocation) :=
  (List.range rows).map fun row =>
    (List.range columns).map fun column =>
      ⟨⟨row, column⟩, typeOracle row column⟩

/-- Embeds `City.generate_random_city` (city.py lines 192-214). -/
def City.generate_random_city (typeOracle : Nat → Nat → CityLocationType)
    (rows columns : Nat) : City :=
  City.ofGrid (randomGrid typeOracle rows columns)

/-- The accumulating walk of `City.get_random_location_type`
(city.py lines 240-247).  `none` models reaching the
`assert False, "Shouldn't get here"` line. -/
def get_random_location_type_walk {α : Type} (r : ℚ) :
    ℚ → List (α × ℚ) → Option α
  | _, [] => none
  | upto, (c, w) :: rest =>
    if r ≤ upto + w then some c else get_random_location_type_walk r (upto + w) rest

/-- Embeds `City.get_random_location_type` (city.py lines 216-247), with
the uniform draw `r` from `[0, total]` passed as an explicit parameter.
Weights are rationals: the Python comparisons are exact order comparisons
on sums of the integer table weights. -/
def City.get_random_location_type {α : Type} (weight_distribution : List (α × ℚ))
    (r : ℚ) : Option α :=
  get_random_location_type_walk r 0 weight_distribution

/-- `total = sum(w for c, w in weight_distribution)` (city.py line 240). -/
def sum_weights {α : Type} (weight_distribution : List (α × ℚ)) : ℚ :=
  (weight_distribution.map fun p => p.2).sum

/-- Index of a location type, used only to order nodes for iteration. -/
def CityLocationType.idx : CityLocationType → Nat
  | CityLocationType.residence => 0
  | CityLocationType.business => 1
  | CityLocationType.blockage => 2
  | CityLocationType.walkway => 3

/-- An injective numeric key for cells, used only to fix an iteration
order over node sets (Python iterates dicts in insertion order; no claim
below depends on the iteration order, only on the underlying set). -/
def cityLocationKey (c : CityLocation) : Nat :=
  Nat.pair c.geo_location.latitude
    (Nat.pair c.geo_location.longitude c.location_type.idx)

theorem cityLocationKey_injective : Function.Injective cityLocationKey := by
  intro a b h
  unfold cityLocationKey at h
  have h1 := (Nat.pair_eq_pair).mp h
  have h2 := (Nat.pair_eq_pair).mp h1.2
  have hidx : a.location_type = b.location_type := by
    have := h2.2
    cases ha : a.location_type <;> cases hb : b.location_type <;>
      simp [ha, hb, CityLocationType.idx] at this ⊢
  cases a with
  | mk ga ta =>
    cases b with
    | mk gb tb =>
      cases ga; cases gb
      simp only [CityLocation.mk.injEq, GeoLocation.mk.injEq]
      exact ⟨⟨h1.1, h2.1⟩, hidx⟩

instance : LinearOrder CityLocation :=
  LinearOrder.lift' cityLocationKey cityLocationKey_injective

/-- Iterating over `city_graph.nodes()`: the node set as a list. -/
def NXGraph.nodeList (g : NXGraph) : List CityLocation :=
  g.nodes.sort (· ≤ ·)

/-- Embeds `PedestrianCommute` (pedestrian.py lines 12-35). -/
structure PedestrianCommute where
  start_location : CityLocation
  destination : CityLocation
deriving DecidableEq, Repr

/-- Embeds the `Pedestrian` object state set by `Pedestrian.__init__`
(pedestrian.py lines 46-50). -/
structure Pedestrian where
  name : String
  city : City
  pedestrian_commute : PedestrianCommute
  shortest_path : List CityLocation

/-- Embeds `Pedestrian.filter_locations` (pedestrian.py lines 52-66):
iterates the city graph's nodes and keeps those passing the criteria. -/
def Pedestrian.filter_locations (city : City) (filter_criteria : CityLocation → Bool) :
    List CityLocation :=
  city.city_graph.nodeList.filter filter_criteria

/-- `path_cache.get(commute, None)` on the Python dict keyed by
`PedestrianCommute` values (lookup by value equality). -/
def cache_get : List (PedestrianCommute × List CityLocation) → PedestrianCommute →
    Option (List CityLocation)
  | [], _ => none
  | (k, v) :: rest, commute => if k = commute then some v else cache_get rest commute

/-- Embeds `Pedestrian.get_shortest_path_from_cache` (pedestrian.py lines
150-158).  `sp` is the `nx.shortest_path` oracle for the traversable graph
(`none` models the NetworkXNoPath exception).  The result triple is
(returned path or raised exception, cache after the call, number of
invocations of the shortest-path routine during the call). -/
def Pedestrian.get_shortest_path_from_cache
    (sp : CityLocation → CityLocation → Option (List CityLocation))
    (commute : PedestrianCommute)
    (path_cache : List (PedestrianCommute × List CityLocation)) :
    Option (List CityLocation) × List (PedestrianCommute × List CityLocation) × Nat :=
  match cache_get path_cache commute with
  | some path => (some path, path_cache, 0)
  | none =>
    match sp commute.start_location commute.destination with
    | some path => (some path, (commute, path) :: path_cache, 1)
    | none => (none, path_cache, 1)

/-- `g.remove_node(v)` of networkx: removes the node and incident edges. -/
def NXGraph.remove_node (g : NXGraph) (v : CityLocation) : NXGraph :=
  { nodes := g.nodes.erase v,
    edges := g.edges.filter (fun e => v ∉ e),
    blockedAttr := g.blockedAttr }

/-- `g.remove_nodes_from(l)` of networkx. -/
def NXGraph.remove_nodes_from (g : NXGraph) (l : List CityLocation) : NXGraph :=
  l.foldl NXGraph.remove_node g

/-- Embeds pedestrian.py lines 121-124: collect the blocked nodes, copy the
city graph (`copy(as_view=False)`, a value copy), and remove the blocked
nodes from the copy.  The returned pair is explicit state passing: its
first component is the city's own graph after the operation (the removal
acts on the copy, so the original is returned unchanged), and its second
component is the derived traversable view. -/
def derive_traversable (city_graph : NXGraph) : NXGraph × NXGraph :=
  let blocked_nodes := city_graph.nodeList.filter fun i => i.is_blocked
  let copied := city_graph
  (city_graph, copied.remove_nodes_from blocked_nodes)

/-- Embeds the pedestrian-construction loop of
`Pedestrian.generate_random_pedestrians` (pedestrian.py lines 131-148):
walk the zipped (start, end) pairs threading the path cache and the
`ped_num` counter; a NetworkXNoPath result is caught and the pedestrian is
skipped (`except nx.NetworkXNoPath`), with `ped_num` still incremented by
the `finally` clause. -/
def pedestrianLoop (sp : CityLocation → CityLocation → Option (List CityLocation))
    (city : City) :
    List (CityLocation × CityLocation) →
    List (PedestrianCommute × List CityLocation) → Nat → List Pedestrian
  | [], _, _ => []
  | (start, fin) :: rest, path_cache, ped_num =>
    let commute : PedestrianCommute := ⟨start, fin⟩
    match Pedestrian.get_shortest_path_from_cache sp commute path_cache with
    | (some path, cache', _) =>
      ⟨"Ped" ++ toString ped_num, city, commute, path⟩ ::
        pedestrianLoop sp city rest cache' (ped_num + 1)
    | (none, cache', _) => pedestrianLoop sp city rest cache' (ped_num + 1)

/-- The possible outcomes of `Pedestrian.generate_random_pedestrians`:
`programExit` models the `exit(0)` call that terminates the whole process,
`noneResult` models `return None`, and `peds` is the normal return. -/
inductive GenPedsResult where
  | programExit : GenPedsResult
  | noneResult : GenPedsResult
  | peds : List Pedestrian → GenPedsResult

/-- Embeds `Pedestrian.generate_random_pedestrians` (pedestrian.py lines
68-148).  `random.sample(pool, n)` raises ValueError exactly when
`n > len(pool)`; the drawn lists themselves are abstracted by the oracles
`sampleStarts`/`sampleEnds` (the randomly sampled origin and destination
lists), and `sp g` is the `nx.shortest_path` oracle on graph `g`. -/
def Pedestrian.generate_random_pedestrians
    (sp : NXGraph → CityLocation → CityLocation → Option (List CityLocation))
    (sampleStarts sampleEnds : List CityLocation)
    (num_peds : Nat) (city : City) : GenPedsResult :=
  let res_nodes := Pedestrian.filter_locations city
    (fun location => location.is_residence || location.is_walkway)
  if num_peds > res_nodes.length then
    GenPedsResult.programExit
  else
    let business_nodes := Pedestrian.filter_locations city
      (fun location => location.is_business || location.is_walkway)
    if num_peds > business_nodes.length then
      GenPedsResult.noneResult
    else
      let combined_nodes := sampleStarts.zip sampleEnds
      let city_unblocked := (derive_traversable city.city_graph).2
      GenPedsResult.peds (pedestrianLoop (sp city_unblocked) city combined_nodes [] 1)

/-- The inner loop of `run_simulation` (ped_collisions.py lines 94-99) for
one pedestrian: fold over `shortest_path[1:-1]` updating the count dict;
the second state component is the `node_position` counter, initialised to
1 and incremented per interior cell (the source never reads it). -/
def intersectLoop (d : CityLocation → Nat) (shortest_path : List CityLocation) :
    (CityLocation → Nat) × Nat :=
  ((shortest_path.drop 1).dropLast).foldl
    (fun st short_path_node =>
      (fun x => if x = short_path_node then st.1 short_path_node + 1 else st.1 x,
       st.2 + 1))
    (d, 1)

/-- Embeds the aggregation step of `run_simulation` (ped_collisions.py
lines 91-99): the `intersect_dict`, modelled as its counting function
(cells never inserted have count 0, matching `dict.get(node, 0)`). -/
def intersect_counts (pedestrians : List Pedestrian) : CityLocation → Nat :=
  pedestrians.foldl (fun d ped => (intersectLoop d ped.shortest_path).1) (fun _ => 0)

/-
Model of the CPython hashing used by the dict/set keys of this program.
`hash(n)` for a non-negative int `n` is `n % (2^61 - 1)`; a user
`__hash__` returning a non-negative int is truncated by the slot wrapper
(`slotHash`); `hash(bound_method)` is `hash(method.__self__)` xor
`hash(method.__func__)`.  The per-process hashes of the function objects
(`GeoLocation.__hash__`, `CityLocation.__hash__`, the enum member hashes)
are arbitrary constants, taken as parameters below.  All quantities in
this program are non-negative, so naturals suffice.
-/

/-- CPython `hash` of a non-negative int. -/
def pyHashNat (n : Nat) : Nat := n % (2 ^ 61 - 1)

/-- The slot wrapper applied to the int a user `__hash__` returns: values
fitting a machine word pass through, larger ones are hashed as ints. -/
def slotHash (v : Nat) : Nat := if v < 2 ^ 63 then v else pyHashNat v

/-- CPython `hash` of a bound method: xor of the hash of `__self__` and
the (per-process constant) hash of `__func__`. -/
def methodHash (selfHash funcHash : Nat) : Nat := selfHash ^^^ funcHash

/-- Embeds `GeoLocation.__hash__` (city.py lines 54-55):
`71 * hash(self.latitude) * hash(self.longitude)`. -/
def GeoLocation.hashValue (g : GeoLocation) : Nat :=
  71 * pyHashNat g.latitude * pyHashNat g.longitude

/-- Embeds `CityLocation.__hash__` (city.py lines 118-119):
`29 * hash(self.geo_location.__hash__) * hash(self.location_type.__hash__)`
— note both factors hash *bound methods*, not field values.  `geoFuncH`
and `enumFuncH` are the function-object hash constants and
`enumSelfHash` gives the hash of each (singleton) enum member. -/
def CityLocation.hashValue (geoFuncH enumFuncH : Nat)
    (enumSelfHash : CityLocationType → Nat) (c : CityLocation) : Nat :=
  29 * methodHash (slotHash c.geo_location.hashValue) geoFuncH
     * methodHash (enumSelfHash c.location_type) enumFuncH

/-- Embeds `PedestrianCommute.__hash__` (pedestrian.py lines 28-29):
`31 * hash(self.start_location.__hash__) * hash(self.destination.__hash__)`
— again hashes of bound methods; both share the `CityLocation.__hash__`
function object, hashed as `clFuncH`. -/
def PedestrianCommute.hashValue (geoFuncH enumFuncH clFuncH : Nat)
    (enumSelfHash : CityLocationType → Nat) (k : PedestrianCommute) : Nat :=
  31 * methodHash (slotHash (k.start_location.hashValue geoFuncH enumFuncH enumSelfHash)) clFuncH
     * methodHash (slotHash (k.destination.hashValue geoFuncH enumFuncH enumSelfHash)) clFuncH

/-- Embeds `GeoLocation.__eq__` (city.py lines 48-52). -/
def GeoLocation.pyEq (a b : GeoLocation) : Bool :=
  a.latitude == b.latitude && a.longitude == b.longitude

/-- Embeds `CityLocation.__eq__` (city.py lines 112-116). -/
def CityLocation.pyEq (a b : CityLocation) : Bool :=
  GeoLocation.pyEq a.geo_location b.geo_location &&
    decide (a.location_type = b.location_type)

/-- Embeds `PedestrianCommute.__eq__` (pedestrian.py lines 22-26). -/
def PedestrianCommute.pyEq (a b : PedestrianCommute) : Bool :=
  CityLocation.pyEq a.start_location b.start_location &&
    CityLocation.pyEq a.destination b.destination

/-- Embeds the module constant `CITY_LOCATION_TYPE_WEIGHT_DISTRIBUTION_`
(city.py lines 122-124). -/
def CITY_LOCATION_TYPE_WEIGHT_DISTRIBUTION_ : List (CityLocationType × ℚ) :=
  [(CityLocationType.walkway, 35), (CityLocationType.residence, 25),
   (CityLocationType.business, 35), (CityLocationType.blockage, 5)]

theorem sum_weights_cons {α : Type} (c : α) (w : ℚ) (rest : List (α × ℚ)) :
    sum_weights ((c, w) :: rest) = w + sum_weights rest := by
  simp [sum_weights]

theorem walk_returns {α : Type} :
    ∀ (wd : List (α × ℚ)) (upto r : ℚ), wd ≠ [] → r ≤ upto + sum_weights wd →
      ∃ c, get_random_location_type_walk r upto wd = some c ∧ c ∈ wd.map Prod.fst := by
  intro wd
  induction wd with
  | nil => intro upto r h _; exact absurd rfl h
  | cons p rest ih =>
    intro upto r _ hle
    obtain ⟨c, w⟩ := p
    by_cases hc : r ≤ upto + w
    · exact ⟨c, by simp [get_random_location_type_walk, hc], by simp⟩
    · cases rest with
      | nil =>
        exact absurd (by rw [sum_weights_cons] at hle; simpa [sum_weights] using hle) hc
      | cons q rest' =>
        have hle' : r ≤ (upto + w) + sum_weights (q :: rest') := by
          rw [sum_weights_cons] at hle; linarith
        obtain ⟨c', hc', hmem⟩ := ih (upto + w) r (by simp) hle'
        refine ⟨c', ?_, ?_⟩
        · simp only [get_random_location_type_walk]
          rw [if_neg hc]
          exact hc'
        rw [List.map_cons]
        exact List.mem_cons_of_mem _ hmem

/-- Claim C5: for every non-empty weight table with non-negative weights and
every draw `r` with `0 ≤ r ≤ total`, `City.get_random_location_type` returns
one of the table's categories via the cumulative walk; the
`assert False, "Shouldn't get here"` branch (modelled by `none`) is
unreachable under this precondition. -/
theorem get_random_location_type_total_on_wellformed_table {α : Type}
    (weight_distribution : List (α × ℚ)) (r : ℚ)
    (hne : weight_distribution ≠ [])
    (hw : ∀ p ∈ weight_distribution, 0 ≤ p.2)
    (hr0 : 0 ≤ r) (hrle : r ≤ sum_weights weight_distribution) :
    ∃ c, City.get_random_location_type weight_distribution r = some c ∧
      c ∈ weight_distribution.map Prod.fst := by
  have h := walk_returns weight_distribution 0 r hne (by simpa using hrle)
  simpa [City.get_random_location_type] using h

/-- Witness for C5 at the source's own weight table and draw r = 50. -/
theorem get_random_location_type_total_witness :
    (CITY_LOCATION_TYPE_WEIGHT_DISTRIBUTION_ ≠ []) ∧
    (∀ p ∈ CITY_LOCATION_TYPE_WEIGHT_DISTRIBUTION_, 0 ≤ p.2) ∧
    ((0 : ℚ) ≤ 50) ∧ ((50 : ℚ) ≤ sum_weights CITY_LOCATION_TYPE_WEIGHT_DISTRIBUTION_) ∧
    (∃ c, City.get_random_location_type CITY_LOCATION_TYPE_WEIGHT_DISTRIBUTION_ 50 = some c ∧
      c ∈ CITY_LOCATION_TYPE_WEIGHT_DISTRIBUTION_.map Prod.fst) :=
  ⟨by simp [CITY_LOCATION_TYPE_WEIGHT_DISTRIBUTION_],
   by intro p hp; fin_cases hp <;> norm_num,
   by norm_num,
   by norm_num [sum_weights, CITY_LOCATION_TYPE_WEIGHT_DISTRIBUTION_],
   get_random_location_type_total_on_wellformed_table _ 50
     (by simp [CITY_LOCATION_TYPE_WEIGHT_DISTRIBUTION_])
     (by intro p hp; fin_cases hp <;> norm_num)
     (by norm_num)
     (by norm_num [sum_weights, CITY_LOCATION_TYPE_WEIGHT_DISTRIBUTION_])⟩

/-- Claim C9: within one path cache, a second call of
`Pedestrian.get_shortest_path_from_cache` with a commute equal to one whose
path was already computed returns the cached path, leaves the cache as it
was, and does not invoke the shortest-path routine again (invocation count
0 in the result triple). -/
theorem get_shortest_path_from_cache_second_hit_no_recompute
    (sp : CityLocation → CityLocation → Option (List CityLocation))
    (commute : PedestrianCommute)
    (path_cache cache1 : List (PedestrianCommute × List CityLocation))
    (p : List CityLocation) (n1 : Nat)
    (h : Pedestrian.get_shortest_path_from_cache sp commute path_cache = (some p, cache1, n1)) :
    Pedestrian.get_shortest_path_from_cache sp commute cache1 = (some p, cache1, 0) := by
  unfold Pedestrian.get_shortest_path_from_cache at h ⊢
  cases hc : cache_get path_cache commute with
  | some q =>
    rw [hc] at h
    simp only [Prod.mk.injEq, Option.some.injEq] at h
    obtain ⟨hq, hcache, -⟩ := h
    rw [← hcache, hc, hq]
  | none =>
    rw [hc] at h
    cases hs : sp commute.start_location commute.destination with
    | some q =>
      rw [hs] at h
      simp only [Prod.mk.injEq, Option.some.injEq] at h
      obtain ⟨hq, hcache, -⟩ := h
      rw [← hcache]
      simp [cache_get, hq]
    | none =>
      rw [hs] at h
      simp at h

/-- A sample pair of cells for concrete witnesses. -/
def cellA : CityLocation := ⟨⟨0, 0⟩, CityLocationType.residence⟩

def cellB : CityLocation := ⟨⟨0, 2⟩, CityLocationType.business⟩

def cellW : CityLocation := ⟨⟨0, 1⟩, CityLocationType.walkway⟩

/-- Witness for C9: a concrete first call that computes and caches a path,
followed by the second call on the resulting cache. -/
theorem get_shortest_path_from_cache_second_hit_witness :
    (Pedestrian.get_shortest_path_from_cache (fun a b => some [a, b]) ⟨cellA, cellB⟩ []
      = (some [cellA, cellB], [(⟨cellA, cellB⟩, [cellA, cellB])], 1)) ∧
    Pedestrian.get_shortest_path_from_cache (fun a b => some [a, b]) ⟨cellA, cellB⟩
        [(⟨cellA, cellB⟩, [cellA, cellB])]
      = (some [cellA, cellB], [(⟨cellA, cellB⟩, [cellA, cellB])], 0) :=
  ⟨by rfl,
   get_shortest_path_from_cache_second_hit_no_recompute (fun a b => some [a, b])
     ⟨cellA, cellB⟩ [] [(⟨cellA, cellB⟩, [cellA, cellB])] [cellA, cellB] 1 (by rfl)⟩

theorem geo_pyEq_iff (a b : GeoLocation) : GeoLocation.pyEq a b = true ↔ a = b := by
  cases a; cases b
  simp [GeoLocation.pyEq]

theorem cityLoc_pyEq_iff (a b : CityLocation) : CityLocation.pyEq a b = true ↔ a = b := by
  cases a; cases b
  simp [CityLocation.pyEq, geo_pyEq_iff]

theorem commute_pyEq_iff (a b : PedestrianCommute) :
    PedestrianCommute.pyEq a b = true ↔ a = b := by
  cases a; cases b
  simp [PedestrianCommute.pyEq, cityLoc_pyEq_iff]

/-- Claim C10: for each of the three value classes, values equal under the
embedded `__eq__` have equal `__hash__` values, whatever the per-process
hashes of the bound methods' function objects (`geoFuncH`, `enumFuncH`,
`clFuncH`) and of the enum member objects (`enumSelfHash`) are — each
`__hash__` is a deterministic function of the value's fields even though it
hashes bound methods, so hash-keyed structures (the graph node dict, the
path cache keyed by commute) treat equal values as the same key. -/
theorem eq_implies_hash_eq_for_value_types
    (geoFuncH enumFuncH clFuncH : Nat) (enumSelfHash : CityLocationType → Nat) :
    (∀ a b : GeoLocation, GeoLocation.pyEq a b = true →
      a.hashValue = b.hashValue) ∧
    (∀ a b : CityLocation, CityLocation.pyEq a b = true →
      a.hashValue geoFuncH enumFuncH enumSelfHash =
        b.hashValue geoFuncH enumFuncH enumSelfHash) ∧
    (∀ a b : PedestrianCommute, PedestrianCommute.pyEq a b = true →
      a.hashValue geoFuncH enumFuncH clFuncH enumSelfHash =
        b.hashValue geoFuncH enumFuncH clFuncH enumSelfHash) := by
  refine ⟨?_, ?_, ?_⟩ <;> intro a b h
  · rw [(geo_pyEq_iff a b).mp h]
  · rw [(cityLoc_pyEq_iff a b).mp h]
  · rw [(commute_pyEq_iff a b).mp h]

/-- Witness for C10 at concrete function-object hash constants and a pair
of equal (but separately constructed) values of each class. -/
theorem eq_implies_hash_eq_witness :
    (GeoLocation.pyEq ⟨3, 4⟩ ⟨3, 4⟩ = true ∧
      GeoLocation.hashValue ⟨3, 4⟩ = GeoLocation.hashValue ⟨3, 4⟩) ∧
    (CityLocation.pyEq cellW ⟨⟨0, 1⟩, CityLocationType.walkway⟩ = true ∧
      CityLocation.hashValue 5 7 (fun t => t.idx) cellW =
        CityLocation.hashValue 5 7 (fun t => t.idx) ⟨⟨0, 1⟩, CityLocationType.walkway⟩) ∧
    (PedestrianCommute.pyEq ⟨cellA, cellB⟩ ⟨cellA, cellB⟩ = true ∧
      PedestrianCommute.hashValue 5 7 11 (fun t => t.idx) ⟨cellA, cellB⟩ =
        PedestrianCommute.hashValue 5 7 11 (fun t => t.idx) ⟨cellA, cellB⟩) := by
  obtain ⟨h1, h2, h3⟩ := eq_implies_hash_eq_for_value_types 5 7 11 (fun t => t.idx)
  refine ⟨⟨by decide, h1 _ _ (by decide)⟩, ⟨?_, h2 _ _ ?_⟩, ⟨?_, h3 _ _ ?_⟩⟩ <;>
    simp [cellA, cellB, cellW, CityLocation.pyEq, PedestrianCommute.pyEq, GeoLocation.pyEq]

theorem intersect_foldl_apply :
    ∀ (m : List CityLocation) (d : CityLocation → Nat) (k : Nat) (x : CityLocation),
      (m.foldl (fun (st : (CityLocation → Nat) × Nat) short_path_node =>
        ((fun y => if y = short_path_node then st.1 short_path_node + 1 else st.1 y),
         st.2 + 1)) (d, k)).1 x = d x + m.count x := by
  intro m
  induction m with
  | nil => intro d k x; simp
  | cons a m ih =>
    intro d k x
    rw [List.foldl_cons]
    rw [ih]
    by_cases hx : x = a
    · subst hx
      simp [List.count_cons_self]
      omega
    · simp [hx, List.count_cons_of_ne hx]

theorem intersectLoop_fst (d : CityLocation → Nat) (sp : List CityLocation)
    (x : CityLocation) :
    (intersectLoop d sp).1 x = d x + ((sp.drop 1).dropLast).count x := by
  simpa [intersectLoop] using intersect_foldl_apply ((sp.drop 1).dropLast) d 1 x

/-- Claim C3 (amended): the aggregation of `run_simulation` iterates only
`shortest_path[1:-1]`, i.e. only positions strictly between 0 and
`length - 1` of each path — a path's own origin and destination positions
are never counted — and the total count for a cell equals the number of
its occurrences at such interior positions summed over all pedestrian
paths.  (The unamended "number of paths containing the cell" reading fails
when a path visits a cell twice in its interior; shortest paths never do,
but the aggregation is defined for every pedestrian list.) -/
theorem intersect_counts_eq_sum_interior_occurrences
    (pedestrians : List Pedestrian) (x : CityLocation) :
    intersect_counts pedestrians x =
      (pedestrians.map fun ped => ((ped.shortest_path.drop 1).dropLast).count x).sum := by
  suffices h : ∀ (peds : List Pedestrian) (d : CityLocation → Nat),
      (peds.foldl (fun d' ped => (intersectLoop d' ped.shortest_path).1) d) x =
        d x + (peds.map fun ped => ((ped.shortest_path.drop 1).dropLast).count x).sum by
    simpa [intersect_counts] using h pedestrians (fun _ => 0)
  intro peds
  induction peds with
  | nil => intro d; simp
  | cons ped rest ih =>
    intro d
    rw [List.foldl_cons, ih, intersectLoop_fst]
    simp
    omega

/-- A minimal city value used only to populate the `city` field of
concretely constructed pedestrians. -/
def emptyCity : City := City.ofGrid []

/-- A pedestrian whose path visits `cellW` twice in its interior. -/
def pedDup : Pedestrian :=
  ⟨"Ped1", emptyCity, ⟨cellA, cellB⟩, [cellA, cellW, cellW, cellB]⟩

/-- Counterexample for C3 as stated: for the path
`[cellA, cellW, cellW, cellB]` the aggregated total for `cellW` is 2, but
only 1 pedestrian path contains `cellW` at an interior position. -/
theorem intersect_counts_ne_path_count_at_duplicate :
    ¬ (intersect_counts [pedDup] cellW =
        ([pedDup].filter fun ped =>
          decide (cellW ∈ (ped.shortest_path.drop 1).dropLast)).length) := by
  decide

/-- A pedestrian with the spec's 3-cell example path. -/
def pedRWB : Pedestrian :=
  ⟨"Ped1", emptyCity, ⟨cellA, cellB⟩, [cellA, cellW, cellB]⟩

/-- Claim C2, evaluated at the failing input: for the single path
`[cellA, cellW, cellB]` the aggregate of `run_simulation` is the bare
total count (`cellW ↦ 1`, everything else 0).  The loop's `node_position`
counter is advanced (final value 2 here) but `intersect_counts` discards
it: the aggregate value carries no per-position mapping at all. -/
theorem run_simulation_aggregate_is_bare_count :
    intersect_counts [pedRWB] cellW = 1 ∧
    intersect_counts [pedRWB] cellA = 0 ∧
    intersect_counts [pedRWB] cellB = 0 ∧
    (intersectLoop (fun _ => 0) pedRWB.shortest_path).2 = 2 := by
  decide

theorem gsp_cache_hit (sp : CityLocation → CityLocation → Option (List CityLocation))
    (commute : PedestrianCommute) (cache : List (PedestrianCommute × List CityLocation))
    (q : List CityLocation) (hc : cache_get cache commute = some q) :
    Pedestrian.get_shortest_path_from_cache sp commute cache = (some q, cache, 0) := by
  unfold Pedestrian.get_shortest_path_from_cache
  rw [hc]

theorem gsp_cache_miss_found (sp : CityLocation → CityLocation → Option (List CityLocation))
    (commute : PedestrianCommute) (cache : List (PedestrianCommute × List CityLocation))
    (q : List CityLocation) (hc : cache_get cache commute = none)
    (hs : sp commute.start_location commute.destination = some q) :
    Pedestrian.get_shortest_path_from_cache sp commute cache =
      (some q, (commute, q) :: cache, 1) := by
  unfold Pedestrian.get_shortest_path_from_cache
  rw [hc, hs]

theorem gsp_cache_miss_nopath (sp : CityLocation → CityLocation → Option (List CityLocation))
    (commute : PedestrianCommute) (cache : List (PedestrianCommute × List CityLocation))
    (hc : cache_get cache commute = none)
    (hs : sp commute.start_location commute.destination = none) :
    Pedestrian.get_shortest_path_from_cache sp commute cache = (none, cache, 1) := by
  unfold Pedestrian.get_shortest_path_from_cache
  rw [hc, hs]

theorem pedestrianLoop_filterMap
    (sp : CityLocation → CityLocation → Option (List CityLocation)) (city : City) :
    ∀ (pairs : List (CityLocation × CityLocation))
      (cache : List (PedestrianCommute × List CityLocation)) (num : Nat),
      (∀ c p, cache_get cache c = some p → sp c.start_location c.destination = some p) →
      pedestrianLoop sp city pairs cache num =
        (List.enumFrom num pairs).filterMap fun ie =>
          (sp ie.2.1 ie.2.2).map fun path =>
            Pedestrian.mk ("Ped" ++ toString ie.1) city ⟨ie.2.1, ie.2.2⟩ path := by
  intro pairs
  induction pairs with
  | nil => intro cache num _; simp [pedestrianLoop, List.enumFrom]
  | cons pr rest ih =>
    intro cache num hinv
    obtain ⟨start, fin⟩ := pr
    cases hc : cache_get cache ⟨start, fin⟩ with
    | some q =>
      have hsp : sp start fin = some q := hinv ⟨start, fin⟩ q hc
      rw [pedestrianLoop, gsp_cache_hit sp ⟨start, fin⟩ cache q hc]
      dsimp only
      rw [ih cache (num + 1) hinv]
      simp [List.enumFrom, hsp]
    | none =>
      cases hs : sp start fin with
      | some q =>
        rw [pedestrianLoop, gsp_cache_miss_found sp ⟨start, fin⟩ cache q hc hs]
        have hinv' : ∀ c p, cache_get ((⟨start, fin⟩, q) :: cache) c = some p →
            sp c.start_location c.destination = some p := by
          intro c p hcg
          by_cases hceq : (⟨start, fin⟩ : PedestrianCommute) = c
          · rw [← hceq]
            rw [← hceq] at hcg
            simp [cache_get] at hcg
            rw [← hcg]
            exact hs
          · rw [show cache_get ((⟨start, fin⟩, q) :: cache) c = cache_get cache c by
              simp [cache_get, hceq]] at hcg
            exact hinv c p hcg
        dsimp only
        rw [ih _ (num + 1) hinv']
        simp [List.enumFrom, hs]
      | none =>
        rw [pedestrianLoop, gsp_cache_miss_nopath sp ⟨start, fin⟩ cache hc hs]
        dsimp only
        rw [ih cache (num + 1) hinv]
        simp [List.enumFrom, hs]

/-- Claim C7: the pedestrian-construction loop of
`Pedestrian.generate_random_pedestrians` (run on the empty cache with
`ped_num = 1`, exactly as the source calls it) produces precisely one
pedestrian per sampled pair whose endpoints are connected in the
traversable view (`sp` returns a path), in order; every pair for which the
shortest-path computation signals NetworkXNoPath (`sp` returns `none`) is
silently skipped — it contributes nothing to the returned list, the
exception does not escape the loop, and all other pairs' pedestrians are
still produced (with `ped_num` still advancing over skipped pairs). -/
theorem pedestrian_loop_skips_unreachable_pairs
    (sp : CityLocation → CityLocation → Option (List CityLocation)) (city : City)
    (pairs : List (CityLocation × CityLocation)) :
    pedestrianLoop sp city pairs [] 1 =
      (List.enumFrom 1 pairs).filterMap fun ie =>
        (sp ie.2.1 ie.2.2).map fun path =>
          Pedestrian.mk ("Ped" ++ toString ie.1) city ⟨ie.2.1, ie.2.2⟩ path := by
  apply pedestrianLoop_filterMap
  intro c p h
  simp [cache_get] at h

theorem foldl_preserve_mem {α σ : Type _} (P : σ → Prop) (step : σ → α → σ) :
    ∀ (l : List α) (s : σ), (∀ t a, a ∈ l → P t → P (step t a)) → P s → P (l.foldl step s) := by
  intro l
  induction l with
  | nil => intro s _ hs; exact hs
  | cons a l ih =>
    intro s hstep hs
    rw [List.foldl_cons]
    exact ih (step s a)
      (fun t b hb ht => hstep t b (List.mem_cons_of_mem a hb) ht)
      (hstep s a (List.mem_cons_self a l) hs)

theorem foldl_add_node_nodes (F : Nat → CityLocation) :
    ∀ (l : List Nat) (g : NXGraph),
      (l.foldl (fun g' i => g'.add_node (F i)) g).nodes = g.nodes ∪ (l.map F).toFinset := by
  intro l
  induction l with
  | nil => intro g; simp
  | cons a l ih =>
    intro g
    rw [List.foldl_cons, ih]
    ext x
    simp only [NXGraph.add_node, Finset.mem_union, Finset.mem_insert, List.map_cons,
      List.toFinset_cons, List.mem_toFinset, List.mem_map]
    tauto

theorem foldl_add_node_edges (F : Nat → CityLocation) :
    ∀ (l : List Nat) (g : NXGraph),
      (l.foldl (fun g' i => g'.add_node (F i)) g).edges = g.edges := by
  intro l
  induction l with
  | nil => intro g; rfl
  | cons a l ih => intro g; rw [List.foldl_cons, ih]; rfl

theorem foldl_add_node_blockedAttr (F : Nat → CityLocation) :
    ∀ (l : List Nat) (g : NXGraph),
      (l.foldl (fun g' i => g'.add_node (F i)) g).blockedAttr = g.blockedAttr := by
  intro l
  induction l with
  | nil => intro g; rfl
  | cons a l ih => intro g; rw [List.foldl_cons, ih]; rfl

theorem graph_nodes_phase_nodes (grid_map : List (List CityLocation)) (rows cols : Nat) :
    (City.graph_nodes_phase grid_map rows cols).nodes =
      (Finset.range rows ×ˢ Finset.range cols).image fun p => cellAt grid_map p.1 p.2 := by
  unfold City.graph_nodes_phase
  have haux : ∀ (l : List Nat) (g : NXGraph),
      (l.foldl (fun g row => (List.range cols).foldl
        (fun g' column => g'.add_node (cellAt grid_map row column)) g) g).nodes =
      g.nodes ∪ l.toFinset.biUnion
        (fun row => ((List.range cols).map (cellAt grid_map row)).toFinset) := by
    intro l
    induction l with
    | nil => intro g; simp
    | cons a l ih =>
      intro g
      rw [List.foldl_cons, ih, foldl_add_node_nodes, List.toFinset_cons,
        Finset.biUnion_insert, Finset.union_assoc]
  rw [haux]
  ext x
  simp [NXGraph.empty, List.mem_range]
  aesop

theorem graph_nodes_phase_edges (grid_map : List (List CityLocation)) (rows cols : Nat) :
    (City.graph_nodes_phase grid_map rows cols).edges = ∅ := by
  unfold City.graph_nodes_phase
  have haux : ∀ (l : List Nat) (g : NXGraph),
      (l.foldl (fun g row => (List.range cols).foldl
        (fun g' column => g'.add_node (cellAt grid_map row column)) g) g).edges = g.edges := by
    intro l
    induction l with
    | nil => intro g; rfl
    | cons a l ih => intro g; rw [List.foldl_cons, ih, foldl_add_node_edges]
  rw [haux]
  rfl

theorem graph_nodes_phase_blockedAttr (grid_map : List (List CityLocation)) (rows cols : Nat) :
    (City.graph_nodes_phase grid_map rows cols).blockedAttr = fun _ => false := by
  unfold City.graph_nodes_phase
  have haux : ∀ (l : List Nat) (g : NXGraph),
      (l.foldl (fun g row => (List.range cols).foldl
        (fun g' column => g'.add_node (cellAt grid_map row column)) g) g).blockedAttr =
        g.blockedAttr := by
    intro l
    induction l with
    | nil => intro g; rfl
    | cons a l ih => intro g; rw [List.foldl_cons, ih, foldl_add_node_blockedAttr]
  rw [haux]
  rfl

theorem mem_ite_singleton {c : Prop} [Decidable c] (x a : Sym2 CityLocation) :
    (x ∈ (if c then ({a} : Finset (Sym2 CityLocation)) else ∅)) ↔ (c ∧ x = a) := by
  split_ifs with h <;> simp [h]

/-- The set of edges one iteration of the connecting loop inserts at a
given (row, column). -/
def stepEdges (grid_map : List (List CityLocation)) (rows cols row col : Nat) :
    Finset (Sym2 CityLocation) :=
  (if row + 1 < rows then
    {s(cellAt grid_map row col, cellAt grid_map (row + 1) col)} else ∅) ∪
  (if 1 ≤ row then
    {s(cellAt grid_map row col, cellAt grid_map (row - 1) col)} else ∅) ∪
  (if col + 1 < cols then
    {s(cellAt grid_map row col, cellAt grid_map row (col + 1))} else ∅) ∪
  (if 1 ≤ col then
    {s(cellAt grid_map row col, cellAt grid_map row (col - 1))} else ∅)

theorem edgesInnerStep_edges (grid_map : List (List CityLocation)) (rows cols row col : Nat)
    (g : NXGraph) :
    (edgesInnerStep grid_map rows cols row g col).edges =
      g.edges ∪ stepEdges grid_map rows cols row col := by
  unfold edgesInnerStep stepEdges
  split_ifs <;> (ext e; simp [City.add_edge, NXGraph.add_edge_attr]) <;> tauto

theorem mem_stepEdges (grid_map : List (List CityLocation)) (rows cols row col : Nat)
    (e : Sym2 CityLocation) :
    e ∈ stepEdges grid_map rows cols row col ↔
      (row + 1 < rows ∧ e = s(cellAt grid_map row col, cellAt grid_map (row + 1) col)) ∨
      (1 ≤ row ∧ e = s(cellAt grid_map row col, cellAt grid_map (row - 1) col)) ∨
      (col + 1 < cols ∧ e = s(cellAt grid_map row col, cellAt grid_map row (col + 1))) ∨
      (1 ≤ col ∧ e = s(cellAt grid_map row col, cellAt grid_map row (col - 1))) := by
  unfold stepEdges
  simp only [Finset.mem_union, mem_ite_singleton]
  tauto

theorem ite_add_edge_nodes (c : Prop) [Decidable c] (g : NXGraph) (u v : CityLocation)
    (N : Finset CityLocation) (h : g.nodes = N) (hm : c → u ∈ N ∧ v ∈ N) :
    (if c then City.add_edge g u v else g).nodes = N := by
  split_ifs with hc
  · obtain ⟨hu, hv⟩ := hm hc
    show insert u (insert v g.nodes) = N
    rw [h, Finset.insert_eq_self.mpr hv, Finset.insert_eq_self.mpr hu]
  · exact h

theorem edgesInnerStep_nodes_pres (grid_map : List (List CityLocation))
    (rows cols row col : Nat) (g : NXGraph) (N : Finset CityLocation)
    (h : g.nodes = N)
    (hcells : ∀ r c, r < rows → c < cols → cellAt grid_map r c ∈ N)
    (hrow : row < rows) (hcol : col < cols) :
    (edgesInnerStep grid_map rows cols row g col).nodes = N := by
  unfold edgesInnerStep
  apply ite_add_edge_nodes _ _ _ _ _ ?_ ?_
  · apply ite_add_edge_nodes _ _ _ _ _ ?_ ?_
    · apply ite_add_edge_nodes _ _ _ _ _ ?_ ?_
      · apply ite_add_edge_nodes _ _ _ _ _ h ?_
        intro hc
        exact ⟨hcells _ _ hrow hcol, hcells _ _ (by omega) hcol⟩
      · intro hc
        exact ⟨hcells _ _ hrow hcol, hcells _ _ (by omega) hcol⟩
    · intro hc
      exact ⟨hcells _ _ hrow hcol, hcells _ _ hrow (by omega)⟩
  · intro hc
    exact ⟨hcells _ _ hrow hcol, hcells _ _ hrow (by omega)⟩

theorem graph_edges_phase_nodes (grid_map : List (List CityLocation)) (rows cols : Nat)
    (g0 : NXGraph) (N : Finset CityLocation) (hg0 : g0.nodes = N)
    (hcells : ∀ r c, r < rows → c < cols → cellAt grid_map r c ∈ N) :
    (City.graph_edges_phase grid_map rows cols g0).nodes = N := by
  unfold City.graph_edges_phase
  refine foldl_preserve_mem (fun g => g.nodes = N)
    (fun g row => (List.range cols).foldl
      (fun g' column => edgesInnerStep grid_map rows cols row g' column) g)
    (List.range rows) g0 ?_ hg0
  intro t row hrow ht
  refine foldl_preserve_mem (fun g => g.nodes = N)
    (fun g' column => edgesInnerStep grid_map rows cols row g' column)
    (List.range cols) t ?_ ht
  intro t' col hcol ht'
  exact edgesInnerStep_nodes_pres grid_map rows cols row col t' N ht' hcells
    (List.mem_range.mp hrow) (List.mem_range.mp hcol)

theorem foldl_edges_acc (A : Nat → Finset (Sym2 CityLocation)) (step : NXGraph → Nat → NXGraph)
    (hstep : ∀ g i, (step g i).edges = g.edges ∪ A i) :
    ∀ (l : List Nat) (g : NXGraph),
      (l.foldl step g).edges = g.edges ∪ l.toFinset.biUnion A := by
  intro l
  induction l with
  | nil => intro g; simp
  | cons a l ih =>
    intro g
    rw [List.foldl_cons, ih, hstep, List.toFinset_cons, Finset.biUnion_insert,
      Finset.union_assoc]

theorem graph_edges_phase_edges (grid_map : List (List CityLocation)) (rows cols : Nat)
    (g0 : NXGraph) :
    (City.graph_edges_phase grid_map rows cols g0).edges =
      g0.edges ∪ (Finset.range rows).biUnion
        (fun row => (Finset.range cols).biUnion (stepEdges grid_map rows cols row)) := by
  unfold City.graph_edges_phase
  have hinner : ∀ (g : NXGraph) (row : Nat),
      ((List.range cols).foldl (fun g' column => edgesInnerStep grid_map rows cols row g' column) g).edges =
        g.edges ∪ (Finset.range cols).biUnion (stepEdges grid_map rows cols row) := by
    intro g row
    rw [foldl_edges_acc (stepEdges grid_map rows cols row) _
      (fun g' i => edgesInnerStep_edges grid_map rows cols row i g')]
    congr 1
    congr 1
    ext x
    simp
  rw [foldl_edges_acc (fun row => (Finset.range cols).biUnion (stepEdges grid_map rows cols row)) _ hinner]
  congr 1
  congr 1
  ext x
  simp

/-- The cell of the random grid at (row, col).  Distinct coordinates give
distinct cells, whatever the drawn types are. -/
def randomCell (typeOracle : Nat → Nat → CityLocationType) (row col : Nat) : CityLocation :=
  ⟨⟨row, col⟩, typeOracle row col⟩

theorem randomCell_inj (f : Nat → Nat → CityLocationType) {a b c d : Nat}
    (h : randomCell f a b = randomCell f c d) : a = c ∧ b = d := by
  have h' := congrArg CityLocation.geo_location h
  simp only [randomCell] at h'
  exact ⟨congrArg GeoLocation.latitude h', congrArg GeoLocation.longitude h'⟩

theorem randomGrid_length (f : Nat → Nat → CityLocationType) (rows cols : Nat) :
    (randomGrid f rows cols).length = rows := by
  simp [randomGrid]

theorem randomGrid_head_length (f : Nat → Nat → CityLocationType) (rows cols : Nat)
    (hr : 0 < rows) : ((randomGrid f rows cols).headD []).length = cols := by
  cases rows with
  | zero => omega
  | succ n =>
    simp [randomGrid, List.range_succ_eq_map]

theorem cellAt_randomGrid (f : Nat → Nat → CityLocationType) (rows cols row col : Nat)
    (hrow : row < rows) (hcol : col < cols) :
    cellAt (randomGrid f rows cols) row col = randomCell f row col := by
  have h1 : (randomGrid f rows cols).getD row [] =
      (List.range cols).map
        (fun column => (⟨⟨row, column⟩, f row column⟩ : CityLocation)) := by
    unfold randomGrid
    rw [List.getD_eq_getElem _ _ (by simpa using hrow), List.getElem_map,
      List.getElem_range]
  unfold cellAt
  rw [h1, List.getD_eq_getElem _ _ (by simpa using hcol), List.getElem_map,
    List.getElem_range]
  rfl

theorem random_city_nodes (f : Nat → Nat → CityLocationType) (rows cols : Nat)
    (hr : 0 < rows) :
    (City.generate_random_city f rows cols).city_graph.nodes =
      (Finset.range rows ×ˢ Finset.range cols).image fun p => randomCell f p.1 p.2 := by
  show (City.generate_graph_from_grid_map (randomGrid f rows cols)).nodes = _
  unfold City.generate_graph_from_grid_map
  rw [randomGrid_length, randomGrid_head_length f rows cols hr]
  apply graph_edges_phase_nodes
  · rw [graph_nodes_phase_nodes]
    apply Finset.image_congr
    rintro ⟨row, col⟩ hp
    simp only [Finset.mem_coe, Finset.mem_product, Finset.mem_range] at hp
    exact cellAt_randomGrid f rows cols row col hp.1 hp.2
  · intro r c hrr hcc
    rw [cellAt_randomGrid f rows cols r c hrr hcc]
    exact Finset.mem_image.mpr ⟨(r, c), by simp [Finset.mem_product, hrr, hcc], rfl⟩

theorem random_city_node_card (f : Nat → Nat → CityLocationType) (rows cols : Nat)
    (hr : 0 < rows) :
    (City.generate_random_city f rows cols).city_graph.nodes.card = rows * cols := by
  rw [random_city_nodes f rows cols hr]
  rw [Finset.card_image_of_injOn, Finset.card_product, Finset.card_range, Finset.card_range]
  rintro ⟨a, b⟩ _ ⟨c, d⟩ _ h
  obtain ⟨h1, h2⟩ := randomCell_inj f h
  exact Prod.ext h1 h2

/-- The horizontal grid adjacencies of the random city, one per
(row, col) with col + 1 < cols. -/
def horizEdges (f : Nat → Nat → CityLocationType) (rows cols : Nat) :
    Finset (Sym2 CityLocation) :=
  (Finset.range rows ×ˢ Finset.range (cols - 1)).image
    fun p => s(randomCell f p.1 p.2, randomCell f p.1 (p.2 + 1))

/-- The vertical grid adjacencies of the random city, one per
(row, col) with row + 1 < rows. -/
def vertEdges (f : Nat → Nat → CityLocationType) (rows cols : Nat) :
    Finset (Sym2 CityLocation) :=
  (Finset.range (rows - 1) ×ˢ Finset.range cols).image
    fun p => s(randomCell f p.1 p.2, randomCell f (p.1 + 1) p.2)

theorem random_city_edges (f : Nat → Nat → CityLocationType) (rows cols : Nat)
    (hr : 0 < rows) :
    (City.generate_random_city f rows cols).city_graph.edges =
      horizEdges f rows cols ∪ vertEdges f rows cols := by
  show (City.generate_graph_from_grid_map (randomGrid f rows cols)).edges = _
  unfold City.generate_graph_from_grid_map
  rw [randomGrid_length, randomGrid_head_length f rows cols hr]
  rw [graph_edges_phase_edges, graph_nodes_phase_edges, Finset.empty_union]
  ext e
  simp only [Finset.mem_biUnion, Finset.mem_range]
  constructor
  · rintro ⟨row, hrow, col, hcol, he⟩
    rw [mem_stepEdges] at he
    rcases he with ⟨h, he⟩ | ⟨h, he⟩ | ⟨h, he⟩ | ⟨h, he⟩
    · subst he
      apply Finset.mem_union_right
      apply Finset.mem_image.mpr
      refine ⟨(row, col), by simp only [Finset.mem_product, Finset.mem_range]; omega, ?_⟩
      rw [cellAt_randomGrid f rows cols row col hrow hcol,
        cellAt_randomGrid f rows cols (row + 1) col h hcol]
    · subst he
      apply Finset.mem_union_right
      apply Finset.mem_image.mpr
      refine ⟨(row - 1, col), by simp only [Finset.mem_product, Finset.mem_range]; omega, ?_⟩
      rw [cellAt_randomGrid f rows cols row col hrow hcol,
        cellAt_randomGrid f rows cols (row - 1) col (by omega) hcol]
      show s(randomCell f (row - 1) col, randomCell f (row - 1 + 1) col) = _
      rw [Nat.sub_add_cancel h]
      exact Sym2.eq_swap
    · subst he
      apply Finset.mem_union_left
      apply Finset.mem_image.mpr
      refine ⟨(row, col), by simp only [Finset.mem_product, Finset.mem_range]; omega, ?_⟩
      rw [cellAt_randomGrid f rows cols row col hrow hcol,
        cellAt_randomGrid f rows cols row (col + 1) hrow h]
    · subst he
      apply Finset.mem_union_left
      apply Finset.mem_image.mpr
      refine ⟨(row, col - 1), by simp only [Finset.mem_product, Finset.mem_range]; omega, ?_⟩
      rw [cellAt_randomGrid f rows cols row col hrow hcol,
        cellAt_randomGrid f rows cols row (col - 1) hrow (by omega)]
      show s(randomCell f row (col - 1), randomCell f row (col - 1 + 1)) = _
      rw [Nat.sub_add_cancel h]
      exact Sym2.eq_swap
  · intro he
    rcases Finset.mem_union.mp he with hh | hv
    · obtain ⟨⟨a, b⟩, hab, hee⟩ := Finset.mem_image.mp hh
      simp only [Finset.mem_product, Finset.mem_range] at hab
      refine ⟨a, hab.1, b, by omega, ?_⟩
      rw [mem_stepEdges]
      refine Or.inr (Or.inr (Or.inl ⟨by omega, ?_⟩))
      rw [cellAt_randomGrid f rows cols a b hab.1 (by omega),
        cellAt_randomGrid f rows cols a (b + 1) hab.1 (by omega)]
      exact hee.symm
    · obtain ⟨⟨a, b⟩, hab, hee⟩ := Finset.mem_image.mp hv
      simp only [Finset.mem_product, Finset.mem_range] at hab
      refine ⟨a, by omega, b, hab.2, ?_⟩
      rw [mem_stepEdges]
      refine Or.inl ⟨by omega, ?_⟩
      rw [cellAt_randomGrid f rows cols a b (by omega) hab.2,
        cellAt_randomGrid f rows cols (a + 1) b (by omega) hab.2]
      exact hee.symm

theorem horizEdges_card (f : Nat → Nat → CityLocationType) (rows cols : Nat) :
    (horizEdges f rows cols).card = rows * (cols - 1) := by
  unfold horizEdges
  rw [Finset.card_image_of_injOn, Finset.card_product, Finset.card_range, Finset.card_range]
  rintro ⟨a, b⟩ _ ⟨c, d⟩ _ h
  simp only at h
  rcases Sym2.eq_iff.mp h with ⟨h1, h2⟩ | ⟨h1, h2⟩
  · obtain ⟨hac, hbd⟩ := randomCell_inj f h1
    exact Prod.ext hac hbd
  · obtain ⟨hac, hbd⟩ := randomCell_inj f h1
    obtain ⟨hca, hdb⟩ := randomCell_inj f h2
    exfalso
    omega

theorem vertEdges_card (f : Nat → Nat → CityLocationType) (rows cols : Nat) :
    (vertEdges f rows cols).card = (rows - 1) * cols := by
  unfold vertEdges
  rw [Finset.card_image_of_injOn, Finset.card_product, Finset.card_range, Finset.card_range]
  rintro ⟨a, b⟩ _ ⟨c, d⟩ _ h
  simp only at h
  rcases Sym2.eq_iff.mp h with ⟨h1, h2⟩ | ⟨h1, h2⟩
  · obtain ⟨hac, hbd⟩ := randomCell_inj f h1
    exact Prod.ext hac hbd
  · obtain ⟨hac, hbd⟩ := randomCell_inj f h1
    obtain ⟨hca, hdb⟩ := randomCell_inj f h2
    exfalso
    omega

theorem horiz_vert_disjoint (f : Nat → Nat → CityLocationType) (rows cols : Nat) :
    Disjoint (horizEdges f rows cols) (vertEdges f rows cols) := by
  rw [Finset.disjoint_left]
  intro e hh hv
  obtain ⟨⟨a, b⟩, _, he1⟩ := Finset.mem_image.mp hh
  obtain ⟨⟨c, d⟩, _, he2⟩ := Finset.mem_image.mp hv
  rw [← he2] at he1
  simp only at he1
  rcases Sym2.eq_iff.mp he1 with ⟨h1, h2⟩ | ⟨h1, h2⟩
  · obtain ⟨hac, hbd⟩ := randomCell_inj f h1
    obtain ⟨hac2, hbd2⟩ := randomCell_inj f h2
    omega
  · obtain ⟨hac, hbd⟩ := randomCell_inj f h1
    obtain ⟨hac2, hbd2⟩ := randomCell_inj f h2
    omega

/-- Claim C4: for positive `rows` and `columns`, the graph of
`City.generate_random_city` has exactly `rows * columns` nodes and exactly
`rows * (columns - 1) + (rows - 1) * columns` edges, for every outcome of
the random type draws (the cells' GeoLocations are pairwise distinct, so no
nodes or edges coincide, and the four-direction `add_edge` insertion over
the undirected graph yields each adjacency exactly once). -/
theorem generate_random_city_node_and_edge_count
    (typeOracle : Nat → Nat → CityLocationType) (rows columns : Nat)
    (hr : 0 < rows) (hc : 0 < columns) :
    (City.generate_random_city typeOracle rows columns).city_graph.nodes.card =
      rows * columns ∧
    (City.generate_random_city typeOracle rows columns).city_graph.edges.card =
      rows * (columns - 1) + (rows - 1) * columns := by
  refine ⟨random_city_node_card typeOracle rows columns hr, ?_⟩
  rw [random_city_edges typeOracle rows columns hr,
    Finset.card_union_of_disjoint (horiz_vert_disjoint typeOracle rows columns),
    horizEdges_card, vertEdges_card]

/-- Witness for C4 on a concrete 2 by 3 grid. -/
theorem generate_random_city_count_witness :
    0 < 2 ∧ 0 < 3 ∧
    (City.generate_random_city (fun _ _ => CityLocationType.walkway) 2 3).city_graph.nodes.card = 2 * 3 ∧
    (City.generate_random_city (fun _ _ => CityLocationType.walkway) 2 3).city_graph.edges.card = 2 * (3 - 1) + (2 - 1) * 3 :=
  ⟨by decide, by decide,
   (generate_random_city_node_and_edge_count (fun _ _ => CityLocationType.walkway) 2 3
     (by decide) (by decide)).1,
   (generate_random_city_node_and_edge_count (fun _ _ => CityLocationType.walkway) 2 3
     (by decide) (by decide)).2⟩

/-- Invariant: every present edge's `blocked` tag equals "either endpoint
is a Blockage". -/
def blockedOK (g : NXGraph) : Prop :=
  ∀ u v : CityLocation, s(u, v) ∈ g.edges →
    g.blockedAttr s(u, v) = (u.is_blocked || v.is_blocked)

theorem blockedOK_empty : blockedOK NXGraph.empty := by
  intro u v h
  simp [NXGraph.empty] at h

theorem blockedOK_add_node (g : NXGraph) (x : CityLocation) (h : blockedOK g) :
    blockedOK (g.add_node x) := h

theorem blockedOK_add_edge (g : NXGraph) (a b : CityLocation) (h : blockedOK g) :
    blockedOK (City.add_edge g a b) := by
  intro u v hmem
  show (if s(u, v) = s(a, b) then (a.is_blocked || b.is_blocked)
    else g.blockedAttr s(u, v)) = (u.is_blocked || v.is_blocked)
  by_cases he : s(u, v) = s(a, b)
  · rw [if_pos he]
    rcases Sym2.eq_iff.mp he with ⟨rfl, rfl⟩ | ⟨rfl, rfl⟩
    · rfl
    · exact Bool.or_comm _ _
  · rw [if_neg he]
    apply h
    have : s(u, v) ∈ insert s(a, b) g.edges := hmem
    exact (Finset.mem_insert.mp this).resolve_left he

theorem blockedOK_edgesInnerStep (grid_map : List (List CityLocation))
    (rows cols row col : Nat) (g : NXGraph) (h : blockedOK g) :
    blockedOK (edgesInnerStep grid_map rows cols row g col) := by
  unfold edgesInnerStep
  split_ifs <;>
    (repeat apply blockedOK_add_edge) <;>
    exact h

theorem blockedOK_generate (grid_map : List (List CityLocation)) :
    blockedOK (City.generate_graph_from_grid_map grid_map) := by
  unfold City.generate_graph_from_grid_map City.graph_edges_phase
  refine foldl_preserve_mem blockedOK _ (List.range grid_map.length) _ ?_ ?_
  · intro t row _ ht
    refine foldl_preserve_mem blockedOK _ (List.range (grid_map.headD []).length) t ?_ ht
    intro t' col _ ht'
    exact blockedOK_edgesInnerStep grid_map _ _ row col t' ht'
  · unfold City.graph_nodes_phase
    refine foldl_preserve_mem blockedOK _ (List.range grid_map.length) _ ?_ blockedOK_empty
    intro t row _ ht
    refine foldl_preserve_mem blockedOK _ (List.range (grid_map.headD []).length) t ?_ ht
    intro t' col _ ht'
    exact blockedOK_add_node t' _ ht'

/-- Claim C6: for every rectangular grid of pairwise-distinct cells, each
edge of the derived connectivity graph carries `blocked` equal to "at least
one endpoint is Blockage-typed" — in particular `blocked = true` iff an
endpoint is a Blockage cell, and `blocked = false` for every edge between
two non-Blockage cells.  (The property holds for every grid; the claim's
rectangularity and distinctness hypotheses are kept as stated.) -/
theorem generate_graph_blocked_attr_iff_endpoint_blockage
    (grid_map : List (List CityLocation))
    (hrect : ∀ row ∈ grid_map, row.length = (grid_map.headD []).length)
    (hdist : grid_map.flatten.Nodup) :
    ∀ u v : CityLocation,
      s(u, v) ∈ (City.generate_graph_from_grid_map grid_map).edges →
      (City.generate_graph_from_grid_map grid_map).blockedAttr s(u, v) =
        (u.is_blocked || v.is_blocked) :=
  fun u v h => blockedOK_generate grid_map u v h

/-- A blockage cell for concrete witnesses. -/
def cellX : CityLocation := ⟨⟨1, 0⟩, CityLocationType.blockage⟩

/-- Witness for C6 on a concrete rectangular, duplicate-free 2 by 2 grid
containing a blockage. -/
theorem generate_graph_blocked_attr_witness :
    (∀ row ∈ [[cellA, cellW], [cellX, cellB]],
      row.length = ([[cellA, cellW], [cellX, cellB]].headD []).length) ∧
    ([[cellA, cellW], [cellX, cellB]].flatten.Nodup) ∧
    (∀ u v : CityLocation,
      s(u, v) ∈ (City.generate_graph_from_grid_map [[cellA, cellW], [cellX, cellB]]).edges →
      (City.generate_graph_from_grid_map [[cellA, cellW], [cellX, cellB]]).blockedAttr s(u, v) =
        (u.is_blocked || v.is_blocked)) :=
  ⟨by decide, by decide,
   generate_graph_blocked_attr_iff_endpoint_blockage [[cellA, cellW], [cellX, cellB]]
     (by decide) (by decide)⟩

/-- Invariant: every edge's endpoints are nodes of the graph (always true
of a networkx graph). -/
def closedOK (g : NXGraph) : Prop :=
  ∀ u v : CityLocation, s(u, v) ∈ g.edges → u ∈ g.nodes ∧ v ∈ g.nodes

theorem closedOK_empty : closedOK NXGraph.empty := by
  intro u v h
  simp [NXGraph.empty] at h

theorem closedOK_add_node (g : NXGraph) (x : CityLocation) (h : closedOK g) :
    closedOK (g.add_node x) := by
  intro u v hmem
  obtain ⟨hu, hv⟩ := h u v hmem
  exact ⟨Finset.mem_insert_of_mem hu, Finset.mem_insert_of_mem hv⟩

theorem closedOK_add_edge (g : NXGraph) (a b : CityLocation) (h : closedOK g) :
    closedOK (City.add_edge g a b) := by
  intro u v hmem
  have hmem' : s(u, v) ∈ insert s(a, b) g.edges := hmem
  show u ∈ insert a (insert b g.nodes) ∧ v ∈ insert a (insert b g.nodes)
  rcases Finset.mem_insert.mp hmem' with he | hold
  · rcases Sym2.eq_iff.mp he with ⟨rfl, rfl⟩ | ⟨rfl, rfl⟩
    · exact ⟨Finset.mem_insert_self _ _,
        Finset.mem_insert_of_mem (Finset.mem_insert_self _ _)⟩
    · exact ⟨Finset.mem_insert_of_mem (Finset.mem_insert_self _ _),
        Finset.mem_insert_self _ _⟩
  · obtain ⟨hu, hv⟩ := h u v hold
    exact ⟨Finset.mem_insert_of_mem (Finset.mem_insert_of_mem hu),
      Finset.mem_insert_of_mem (Finset.mem_insert_of_mem hv)⟩

theorem closedOK_edgesInnerStep (grid_map : List (List CityLocation))
    (rows cols row col : Nat) (g : NXGraph) (h : closedOK g) :
    closedOK (edgesInnerStep grid_map rows cols row g col) := by
  unfold edgesInnerStep
  split_ifs <;>
    (repeat apply closedOK_add_edge) <;>
    exact h

theorem closedOK_generate (grid_map : List (List CityLocation)) :
    closedOK (City.generate_graph_from_grid_map grid_map) := by
  unfold City.generate_graph_from_grid_map City.graph_edges_phase
  refine foldl_preserve_mem closedOK _ (List.range grid_map.length) _ ?_ ?_
  · intro t row _ ht
    refine foldl_preserve_mem closedOK _ (List.range (grid_map.headD []).length) t ?_ ht
    intro t' col _ ht'
    exact closedOK_edgesInnerStep grid_map _ _ row col t' ht'
  · unfold City.graph_nodes_phase
    refine foldl_preserve_mem closedOK _ (List.range grid_map.length) _ ?_ closedOK_empty
    intro t row _ ht
    refine foldl_preserve_mem closedOK _ (List.range (grid_map.headD []).length) t ?_ ht
    intro t' col _ ht'
    exact closedOK_add_node t' _ ht'

theorem remove_nodes_from_nodes :
    ∀ (l : List CityLocation) (g : NXGraph) (v : CityLocation),
      v ∈ (g.remove_nodes_from l).nodes ↔ v ∈ g.nodes ∧ v ∉ l := by
  intro l
  induction l with
  | nil => intro g v; simp [NXGraph.remove_nodes_from]
  | cons a l ih =>
    intro g v
    show v ∈ ((g.remove_node a).remove_nodes_from l).nodes ↔ _
    rw [ih]
    simp only [NXGraph.remove_node, Finset.mem_erase, List.mem_cons]
    tauto

theorem remove_nodes_from_edges :
    ∀ (l : List CityLocation) (g : NXGraph) (e : Sym2 CityLocation),
      e ∈ (g.remove_nodes_from l).edges ↔ e ∈ g.edges ∧ ∀ v ∈ l, v ∉ e := by
  intro l
  induction l with
  | nil => intro g e; simp [NXGraph.remove_nodes_from]
  | cons a l ih =>
    intro g e
    show e ∈ ((g.remove_node a).remove_nodes_from l).edges ↔ _
    rw [ih]
    simp only [NXGraph.remove_node, Finset.mem_filter, List.mem_cons]
    constructor
    · rintro ⟨⟨he, ha⟩, hl⟩
      refine ⟨he, ?_⟩
      rintro v (rfl | hv)
      · exact ha
      · exact hl v hv
    · rintro ⟨he, hall⟩
      exact ⟨⟨he, hall a (Or.inl rfl)⟩, fun v hv => hall v (Or.inr hv)⟩

theorem mem_nodeList (g : NXGraph) (v : CityLocation) :
    v ∈ g.nodeList ↔ v ∈ g.nodes := by
  unfold NXGraph.nodeList
  exact Finset.mem_sort _

/-- Claim C8: deriving the traversable view (copying the city graph and
removing every Blockage-typed node) yields a graph with no Blockage node
and no edge incident to one, and returns the source city's graph itself
unchanged (the removal acts on the copy): the original graph has exactly
the same nodes and edges after the derivation as before.  The closure
hypothesis (edge endpoints are nodes) is an invariant of every networkx
graph, proved for generated city graphs as `closedOK_generate`. -/
theorem derive_traversable_removes_blockages_and_preserves_source (g : NXGraph)
    (hclosed : ∀ u v : CityLocation, s(u, v) ∈ g.edges → u ∈ g.nodes ∧ v ∈ g.nodes) :
    (∀ v ∈ (derive_traversable g).2.nodes, v.is_blocked = false) ∧
    (∀ u v : CityLocation, s(u, v) ∈ (derive_traversable g).2.edges →
      u.is_blocked = false ∧ v.is_blocked = false) ∧
    (derive_traversable g).1 = g := by
  have hbl : ∀ x : CityLocation,
      x ∈ g.nodeList.filter (fun i => i.is_blocked) ↔ x ∈ g.nodes ∧ x.is_blocked := by
    intro x
    rw [List.mem_filter, mem_nodeList]
  refine ⟨?_, ?_, rfl⟩
  · intro v hv
    have h1 := (remove_nodes_from_nodes _ _ _).mp hv
    cases hb : v.is_blocked
    · rfl
    · exact absurd ((hbl v).mpr ⟨h1.1, hb⟩) h1.2
  · intro u v hmem
    have h1 := (remove_nodes_from_edges _ _ _).mp hmem
    obtain ⟨huv, hnone⟩ := h1
    constructor
    · cases hb : u.is_blocked
      · rfl
      · exact absurd (Sym2.mem_mk_left u v)
          (hnone u ((hbl u).mpr ⟨(hclosed u v huv).1, hb⟩))
    · cases hb : v.is_blocked
      · rfl
      · exact absurd (Sym2.mem_mk_right u v)
          (hnone v ((hbl v).mpr ⟨(hclosed u v huv).2, hb⟩))

/-- Witness for C8 on a concrete generated city graph containing a
blockage; the closure hypothesis is discharged by `closedOK_generate`. -/
theorem derive_traversable_witness :
    (∀ v ∈ (derive_traversable (City.generate_graph_from_grid_map [[cellA, cellX]])).2.nodes,
      v.is_blocked = false) ∧
    (∀ u v : CityLocation,
      s(u, v) ∈ (derive_traversable (City.generate_graph_from_grid_map [[cellA, cellX]])).2.edges →
      u.is_blocked = false ∧ v.is_blocked = false) ∧
    (derive_traversable (City.generate_graph_from_grid_map [[cellA, cellX]])).1 =
      City.generate_graph_from_grid_map [[cellA, cellX]] :=
  derive_traversable_removes_blockages_and_preserves_source
    (City.generate_graph_from_grid_map [[cellA, cellX]])
    (closedOK_generate [[cellA, cellX]])

/-- A city whose only cell is a Business: its origin pool (Residence or
Walkway cells) is empty. -/
def bizOnlyCity : City := City.ofGrid [[cellB]]

/-- Claim C1, evaluated at the failing input: with an empty origin pool and
`num_peds = 1`, `random.sample` raises ValueError and the source's handler
(pedestrian.py lines 96-99) prints a message and calls `exit(0)` —
modelled as the `programExit` outcome — terminating the whole program
instead of returning an error signal to the caller.  (Only the
destination-pool handler, lines 110-112, returns `None` as the claim
describes.) -/
theorem generate_random_pedestrians_origin_capacity_exits_program :
    Pedestrian.generate_random_pedestrians (fun _ _ _ => none) [] [] 1 bizOnlyCity =
      GenPedsResult.programExit := by
  have hnodes : bizOnlyCity.city_graph.nodes = {cellB} := by decide
  have hres : Pedestrian.filter_locations bizOnlyCity
      (fun location => location.is_residence || location.is_walkway) = [] := by
    unfold Pedestrian.filter_locations NXGraph.nodeList
    rw [hnodes, Finset.sort_singleton]
    decide
  unfold Pedestrian.generate_random_pedestrians
  rw [hres]
  simp
